import Mathlib

/-!
# Verification of the Cyber Attack Simulator core engine and result exporters

The repository's core simulation engine (network topology, partial-observation
state, step/reward/termination machine) is exercised by
`envs/test/test_environment.py`; the experiment drivers `analyser.py` and
`experiments/scaling.py` consume the engine.  The engine modules themselves
(`environment.py`, `state.py`, `network.py`, `action.py`) are not part of the
provided sources, so the engine below is modelled from the specification; the
exporters (`Analyser.output_results`, `scaling.write_results`,
`scaling.environment_solved`, `scaling.main`) are embedded directly from their
source.
-/

namespace CAS

/-- Modelled from the spec: the three-valued service-knowledge domain
{unknown, present, absent} of `envs/state.py` (`Service` enum used by the
test file). -/
inductive Service where
  | unknown : Service
  | present : Service
  | absent : Service
deriving DecidableEq, Repr

/-- Modelled from the spec: a machine address is a pair (subnet-id, host-id)
(`envs/network.py`). -/
abbrev Address := Nat × Nat

/-- Modelled from the spec: the exposed subnet identifier `network.EXPOSED`. -/
def EXPOSED : Nat := 0

/-- Modelled from the spec: the per-machine observation record held in a
State (`envs/state.py`): service knowledge vector, compromised, reachable
and sensitive flags. -/
structure MachineObs where
  service_info : List Service
  compromised : Bool
  reachable : Bool
  sensitive : Bool
deriving DecidableEq, Repr

/-- Modelled from the spec: the agent-visible State of `envs/state.py`, a
mapping from machine addresses to observation records. -/
def State := Address → MachineObs

/-- Modelled from the spec: one service-knowledge entry may only be resolved
once: a write lands only when the entry is still `unknown` (re-setting a
resolved entry to the same value is a no-op; a conflicting write is an
`InvalidTransition` caller bug that the engine never performs, modelled here
as leaving the entry unchanged). -/
def updateEntry (l : List Service) (idx : Nat) (v : Service) : List Service :=
  match l[idx]? with
  | some Service.unknown => l.set idx v
  | _ => l

/-- Modelled from the spec: `State.update_service` of `envs/state.py`. -/
def State.update_service (s : State) (target : Address) (idx : Nat)
    (v : Service) : State :=
  fun a => if a = target then
    { s a with service_info := updateEntry (s a).service_info idx v }
  else s a

/-- Modelled from the spec: `State.set_compromised` of `envs/state.py`
(idempotent, only ever sets the flag to true). -/
def State.set_compromised (s : State) (target : Address) : State :=
  fun a => if a = target then { s a with compromised := true } else s a

/-- Modelled from the spec: `State.set_reachable` of `envs/state.py`
(idempotent, only ever sets the flag to true). -/
def State.set_reachable (s : State) (target : Address) : State :=
  fun a => if a = target then { s a with reachable := true } else s a

/-- Modelled from the spec: `State.reachable` query of `envs/state.py`. -/
def State.reachable (s : State) (a : Address) : Bool := (s a).reachable

/-- Modelled from the spec: State equality over the topology's address space
(`State.__eq__` of `envs/state.py`): two States are equal iff every machine's
observation record compares equal field-by-field. -/
def stateEqOn (addrs : List Address) (s1 s2 : State) : Bool :=
  addrs.all fun a => decide (s1 a = s2 a)

/-- Modelled from the spec: the immutable network topology of
`envs/network.py`: ordered address space, subnet adjacency, per-machine true
service configuration, and the distinguished sensitive/user reward machines. -/
structure Network where
  E : Nat
  address_space : List Address
  subnets_connected : Nat → Nat → Bool
  true_services : Address → List Bool
  sensitive_machines : List Address
  user_machines : List Address

/-- Modelled from the spec: `Network.get_reward_machines` of
`envs/network.py`: the set of addresses flagged sensitive or user. -/
def Network.get_reward_machines (n : Network) : List Address :=
  n.sensitive_machines ++ n.user_machines

/-- Modelled from the spec: the action kinds of `envs/action.py`. -/
inductive ActionKind where
  | scan : ActionKind
  | exploit : ActionKind
deriving DecidableEq, Repr

/-- Modelled from the spec: an immutable Action of `envs/action.py`: target
address, kind, service index (used when kind = exploit), cost. -/
structure Action where
  target : Address
  kind : ActionKind
  service : Nat
  cost : ℤ
deriving DecidableEq, Repr

/-- Modelled from the spec: `Action.is_scan` of `envs/action.py`. -/
def Action.is_scan (a : Action) : Bool := a.kind = ActionKind.scan

/-- Modelled from the spec: the engine of `envs/environment.py`
(`CyberAttackSimulatorEnv`): immutable topology plus the reward magnitudes
`R_SENSITIVE` and `R_USER`. -/
structure Env where
  network : Network
  r_sensitive : ℤ
  r_user : ℤ

/-- Modelled from the spec: the engine's mutable episode state: the private
ground-truth compromised map and the agent-visible observation State. -/
structure EnvState where
  compromised : Address → Bool
  obs : State

/-- Modelled from the spec: `reset()` of `envs/environment.py`: ground truth
all-uncompromised; every exposed-subnet machine reachable, all service
entries unknown, compromised false, sensitive flag copied from the
topology's reward-machine set. -/
def Env.reset (env : Env) : EnvState :=
  { compromised := fun _ => false
    obs := fun a =>
      { service_info := List.replicate env.network.E Service.unknown
        compromised := false
        reachable := a.1 == EXPOSED
        sensitive := env.network.get_reward_machines.contains a } }

/-- Modelled from the spec: episode termination: done iff every reward
machine of the topology is compromised in ground truth. -/
def Env.isDone (env : Env) (gs : EnvState) : Bool :=
  env.network.get_reward_machines.all fun m => gs.compromised m

/-- Modelled from the spec: a scan resolves every service slot's true value
from the topology and writes it into the service-knowledge vector
(first-time write only). -/
def scanObs (env : Env) (t : Address) (o : State) : State :=
  (List.range env.network.E).foldl
    (fun o i =>
      o.update_service t i
        (if (env.network.true_services t).getD i false then Service.present
         else Service.absent))
    o

/-- Modelled from the spec: reachability propagation after a successful
exploit: for every machine of the address space not yet known-reachable whose
subnet is connected to the target's subnet, mark it reachable. -/
def propagateReach (net : Network) (tsub : Nat) :
    List Address → State → State
  | [], o => o
  | m :: rest, o =>
      propagateReach net tsub rest
        (if (o m).reachable then o
         else if net.subnets_connected tsub m.1 then o.set_reachable m
         else o)

/-- Modelled from the spec: `step(action)` of `envs/environment.py`, in the
deterministic mode (exploit probability 1, as the visible test fixtures use):
an unreachable target leaves everything unchanged with reward −cost; a scan
resolves all service slots; an exploit succeeds iff the targeted service is
truly present, compromising the target in ground truth and State, resolving
the exploited service, propagating reachability, and rewarding the machine
type bonus (first compromise only) minus cost; a failed exploit marks the
attempted service absent with reward −cost.  Returns (state, reward, done). -/
def Env.step (env : Env) (gs : EnvState) (a : Action) :
    EnvState × ℤ × Bool :=
  if (gs.obs a.target).reachable = false then
    (gs, -a.cost, env.isDone gs)
  else if a.kind = ActionKind.scan then
    ({ gs with obs := scanObs env a.target gs.obs }, -a.cost, env.isDone gs)
  else if (env.network.true_services a.target).getD a.service false then
    let bonus : ℤ :=
      if gs.compromised a.target then 0
      else if env.network.sensitive_machines.contains a.target then
        env.r_sensitive
      else if env.network.user_machines.contains a.target then env.r_user
      else 0
    let ground : Address → Bool :=
      fun m => if m = a.target then true else gs.compromised m
    let obs1 :=
      (gs.obs.update_service a.target a.service Service.present).set_compromised
        a.target
    let obs2 := propagateReach env.network a.target.1
      env.network.address_space obs1
    let gs' : EnvState := { compromised := ground, obs := obs2 }
    (gs', bonus - a.cost, env.isDone gs')
  else
    ({ gs with obs := gs.obs.update_service a.target a.service Service.absent },
      -a.cost, env.isDone gs)

/-- Modelled from the spec: running a sequence of actions through `step`,
keeping only the resulting engine state. -/
def Env.run (env : Env) (gs : EnvState) : List Action → EnvState
  | [] => gs
  | a :: rest => env.run (env.step gs a).1 rest

/-- The concrete 3-machine, 1-service network of the test fixture
(`EnvironmentTestCase.setUp`): machine (0,0) in the exposed subnet, reward
machines (1,0) sensitive and (2,0) user, all subnets mutually connected,
every machine running its single service. -/
def net3 : Network :=
  { E := 1
    address_space := [(0, 0), (1, 0), (2, 0)]
    subnets_connected := fun a b => a == b || (a < 3 && b < 3)
    true_services := fun _ => [true]
    sensitive_machines := [(1, 0)]
    user_machines := [(2, 0)] }

/-- The concrete engine instance of the test fixture, with distinguishable
reward magnitudes. -/
def env3 : Env :=
  { network := net3
    r_sensitive := 100
    r_user := 10 }

/-- Exploit action on machine (0,0), service 0, cost 1. -/
def actE0 : Action := { target := (0, 0), kind := ActionKind.exploit, service := 0, cost := 1 }

/-- Exploit action on machine (1,0), service 0, cost 1. -/
def actE1 : Action := { target := (1, 0), kind := ActionKind.exploit, service := 0, cost := 1 }

/-- Exploit action on machine (2,0), service 0, cost 1. -/
def actE2 : Action := { target := (2, 0), kind := ActionKind.exploit, service := 0, cost := 1 }

/-- Scan action on machine (1,0), cost 1. -/
def actS1 : Action := { target := (1, 0), kind := ActionKind.scan, service := 0, cost := 1 }

example : (env3.step env3.reset actS1).2.1 = -1 := by decide
example : (env3.step env3.reset actS1).2.2 = false := by decide
example : (env3.step env3.reset actE0).2.1 = -1 := by decide
example :
    (env3.step (env3.run env3.reset [actE0]) actE1).2.1 = 99 := by decide
example :
    (env3.step (env3.run env3.reset [actE0, actE1]) actE2).2.2 = true := by
  decide
example :
    (env3.step (env3.run env3.reset [actE0, actE2]) actE2).2.1 = -1 := by
  decide
example :
    ((env3.run env3.reset [actE0]).obs (2, 0)).reachable = true := by decide

/-! ## The result exporters, embedded from `analyser.py` and
`experiments/scaling.py` -/

/-- `Analyser.run_analysis` stores per agent three per-episode series
(run-averaged timesteps, rewards and wall times); `output_results` reads
them back only through an episode index, so each series is embedded as a
function from episode index to its printed form. -/
structure AgentSeries where
  steps : Nat → String
  rewards : Nat → String
  times : Nat → String

/-- `Analyser.output_results` (analyser.py lines 109-125): the CSV lines
written, the header first, then for each agent of `results` (in insertion
order) one line per episode 0..num_episodes−1. -/
def output_results (results : List (String × AgentSeries))
    (num_episodes : Nat) : List String :=
  "agent,episode,timesteps,reward,time" ::
    results.flatMap fun p =>
      (List.range num_episodes).map fun e =>
        p.1 ++ "," ++ toString e ++ "," ++ p.2.steps e ++ "," ++
          p.2.rewards e ++ "," ++ p.2.times e

/-- `scaling.RUNS`. -/
def RUNS : Nat := 5

/-- `scaling.MACHINE_MIN`. -/
def MACHINE_MIN : Nat := 27

/-- `scaling.MACHINE_MAX`. -/
def MACHINE_MAX : Nat := 29

/-- `scaling.MACHINE_INTERVAL`. -/
def MACHINE_INTERVAL : Nat := 2

/-- `scaling.EVAL_RUNS`. -/
def EVAL_RUNS : Nat := 100

/-- `scaling.OPTIMALITY_PROPORTION` (7.0 in the source; multiplication by
an integer machine-action count followed by `int(round(...))` is exact, so
it is embedded as the natural number 7). -/
def OPTIMALITY_PROPORTION : Nat := 7

/-- `scaling.OPTIMAL_SOLVE_PROPORTION` (0.9; every comparison the code
performs against it is a ratio of naturals with denominator 100, for which
double rounding never changes the verdict, so it is embedded exactly). -/
def OPTIMAL_SOLVE_PROPORTION : ℚ := 9 / 10

/-- `range(MACHINE_MIN, MACHINE_MAX + 1, MACHINE_INTERVAL)` of
`run_scaling_analysis`: the machine counts 27 and 29. -/
def machine_range : List Nat :=
  List.range' MACHINE_MIN
    ((MACHINE_MAX + 1 - MACHINE_MIN + MACHINE_INTERVAL - 1) /
      MACHINE_INTERVAL)
    MACHINE_INTERVAL

/-- The outcome `run_till_solved` reports for one (agent, machine count,
run): solved flag plus the printed solve time and mean reward. -/
structure RunOutcome where
  solved : Bool
  solve_time : String
  mean_reward : String

/-- `scaling.write_results` (lines 76-80): one CSV row with the fields
agent, M, run, solved, solve_time, mean_reward in that order (Python prints
a bool as `True`/`False`). -/
def write_results (agent : String) (M run : Nat) (solved : Bool)
    (solve_time mean_reward : String) : String :=
  agent ++ "," ++ toString M ++ "," ++ toString run ++ "," ++
    (if solved then "True" else "False") ++ "," ++ solve_time ++ "," ++
    mean_reward

/-- `scaling.run_scaling_analysis` (lines 49-73), abstracted over the
training outcome `solve` of each (agent, machine count, run): for each
machine count of the sweep it writes one row per run, and breaks out of the
sweep when no run at the current machine count solved. -/
def run_scaling_analysis (solve : String → Nat → Nat → RunOutcome)
    (agent : String) : List Nat → List String
  | [] => []
  | m :: rest =>
      let rows := (List.range RUNS).map fun t =>
        let o := solve agent m t
        write_results agent m t o.solved o.solve_time o.mean_reward
      let one_run_solved :=
        (List.range RUNS).any fun t => (solve agent m t).solved
      if one_run_solved then rows ++ run_scaling_analysis solve agent rest
      else rows

/-- The agent sweep of `scaling.py`: only `dqn` is enabled in the source's
`agents` table. -/
def agents_list : List String := ["dqn"]

/-- `scaling.main` (lines 132-152), fresh-file path: the header row followed
by the rows of `run_scaling_analysis` for each enabled agent. -/
def scaling_main (solve : String → Nat → Nat → RunOutcome) : List String :=
  "agent,M,run,solved,solve_time,mean_reward" ::
    agents_list.flatMap fun a => run_scaling_analysis solve a machine_range

/-- A training oracle under which no run ever solves. -/
def solve_none : String → Nat → Nat → RunOutcome :=
  fun _ _ _ => { solved := false, solve_time := "0.00", mean_reward := "0" }

/-- `scaling.get_episode_reward` (lines 118-119): the reward entry of the
episode's final (state, action, reward) tuple; an episode is embedded as
its reward column, which is all `environment_solved` reads besides the
length. -/
def get_episode_reward (episode : List ℚ) : ℚ := episode.getLastD 0

/-- `scaling.environment_solved` (lines 99-115), abstracted over the agent's
generated episodes `gen`: counts the evaluation episodes shorter than the
optimal threshold, sums their final rewards, divides only when at least one
solved, and reports solved iff the solved fraction exceeds
`OPTIMAL_SOLVE_PROPORTION`. -/
def environment_solved (min_actions : Nat) (gen : Nat → List ℚ) :
    Bool × ℚ :=
  let optimal_threshold := min_actions * OPTIMALITY_PROPORTION
  let solved_eps := ((List.range EVAL_RUNS).map gen).filter
    fun ep => ep.length < optimal_threshold
  let solved_runs := solved_eps.length
  let total_reward := (solved_eps.map get_episode_reward).sum
  let mean_reward : ℚ :=
    if solved_runs = 0 then 0 else total_reward / (solved_runs : ℚ)
  (decide (OPTIMAL_SOLVE_PROPORTION < (solved_runs : ℚ) / (EVAL_RUNS : ℚ)),
    mean_reward)

/-- A one-agent analyser result table for concrete evaluation. -/
def series1 : AgentSeries :=
  { steps := fun _ => "s", rewards := fun _ => "r", times := fun _ => "t" }

/-- The evaluation-episode table for the C10 witness: run 0 solves in one
step with final reward 5, every other run reaches length 10 (at or above
the threshold 7 for one minimum action). -/
def gen_w : Nat → List ℚ :=
  fun r => if r = 0 then [5] else List.replicate 10 0

example : machine_range = [27, 29] := by decide

/-! ## Helper lemmas: monotonicity of the observation State and ground truth -/

/-- The pointwise monotonicity order on States: reachable and compromised
flags can only be gained, resolved service-knowledge entries are kept. -/
def obsMono (o1 o2 : State) : Prop :=
  ∀ m : Address,
    ((o1 m).reachable = true → (o2 m).reachable = true) ∧
    ((o1 m).compromised = true → (o2 m).compromised = true) ∧
    ∀ (i : Nat) (w : Service), w ≠ Service.unknown →
      (o1 m).service_info[i]? = some w → (o2 m).service_info[i]? = some w

theorem obsMono_refl (o : State) : obsMono o o :=
  fun _ => ⟨id, id, fun _ _ _ h => h⟩

theorem obsMono_trans {o1 o2 o3 : State} (h12 : obsMono o1 o2)
    (h23 : obsMono o2 o3) : obsMono o1 o3 :=
  fun m =>
    ⟨fun h => (h23 m).1 ((h12 m).1 h),
     fun h => (h23 m).2.1 ((h12 m).2.1 h),
     fun i w hw h => (h23 m).2.2 i w hw ((h12 m).2.2 i w hw h)⟩

theorem updateEntry_resolved (l : List Service) (idx : Nat) (v : Service)
    (i : Nat) (w : Service) (hw : w ≠ Service.unknown)
    (h : l[i]? = some w) : (updateEntry l idx v)[i]? = some w := by
  unfold updateEntry
  split
  · rename_i h2
    rcases eq_or_ne idx i with rfl | hne
    · rw [h] at h2
      exact absurd (Option.some.inj h2) hw
    · rw [List.getElem?_set_ne hne]
      exact h
  · exact h

theorem obsMono_update_service (o : State) (t : Address) (idx : Nat)
    (v : Service) : obsMono o (o.update_service t idx v) := by
  intro m
  unfold State.update_service
  split
  · exact ⟨id, id, fun i w hw h => updateEntry_resolved _ idx v i w hw h⟩
  · exact ⟨id, id, fun _ _ _ h => h⟩

theorem obsMono_set_compromised (o : State) (t : Address) :
    obsMono o (o.set_compromised t) := by
  intro m
  unfold State.set_compromised
  split
  · exact ⟨id, fun _ => rfl, fun _ _ _ h => h⟩
  · exact ⟨id, id, fun _ _ _ h => h⟩

theorem obsMono_set_reachable (o : State) (t : Address) :
    obsMono o (o.set_reachable t) := by
  intro m
  unfold State.set_reachable
  split
  · exact ⟨fun _ => rfl, id, fun _ _ _ h => h⟩
  · exact ⟨id, id, fun _ _ _ h => h⟩

theorem obsMono_foldl (f : State → Nat → State)
    (hf : ∀ o i, obsMono o (f o i)) (l : List Nat) (o : State) :
    obsMono o (l.foldl f o) := by
  induction l generalizing o with
  | nil => exact obsMono_refl o
  | cons i rest ih => exact obsMono_trans (hf o i) (ih (f o i))

theorem obsMono_scanObs (env : Env) (t : Address) (o : State) :
    obsMono o (scanObs env t o) :=
  obsMono_foldl _ (fun o i => obsMono_update_service o t i _) _ o

theorem obsMono_propagateReach (net : Network) (tsub : Nat)
    (l : List Address) (o : State) :
    obsMono o (propagateReach net tsub l o) := by
  induction l generalizing o with
  | nil => exact obsMono_refl o
  | cons m rest ih =>
      unfold propagateReach
      refine obsMono_trans ?_ (ih _)
      split
      · exact obsMono_refl o
      · split
        · exact obsMono_set_reachable o m
        · exact obsMono_refl o

theorem step_obs_mono (env : Env) (gs : EnvState) (a : Action) :
    obsMono gs.obs (env.step gs a).1.obs := by
  unfold Env.step
  split
  · exact obsMono_refl _
  · split
    · exact obsMono_scanObs env _ _
    · split
      · exact obsMono_trans
          (obsMono_trans (obsMono_update_service _ _ _ _)
            (obsMono_set_compromised _ _))
          (obsMono_propagateReach _ _ _ _)
      · exact obsMono_update_service _ _ _ _

theorem run_obs_mono (env : Env) (acts : List Action) (gs : EnvState) :
    obsMono gs.obs (env.run gs acts).obs := by
  induction acts generalizing gs with
  | nil => exact obsMono_refl _
  | cons a rest ih =>
      exact obsMono_trans (step_obs_mono env gs a) (ih (env.step gs a).1)

theorem step_ground_mono (env : Env) (gs : EnvState) (a : Action)
    (m : Address) (h : gs.compromised m = true) :
    (env.step gs a).1.compromised m = true := by
  unfold Env.step
  split
  · exact h
  · split
    · exact h
    · split
      · show (if m = a.target then true else gs.compromised m) = true
        split
        · rfl
        · exact h
      · exact h

theorem run_ground_mono (env : Env) (acts : List Action) (gs : EnvState)
    (m : Address) (h : gs.compromised m = true) :
    (env.run gs acts).compromised m = true := by
  induction acts generalizing gs with
  | nil => exact h
  | cons a rest ih => exact ih (env.step gs a).1 (step_ground_mono env gs a m h)

theorem step_done_eq (env : Env) (gs : EnvState) (a : Action) :
    (env.step gs a).2.2 = env.isDone (env.step gs a).1 := by
  unfold Env.step
  split
  · rfl
  · split
    · rfl
    · split
      · rfl
      · rfl

theorem isDone_iff (env : Env) (gs : EnvState) :
    env.isDone gs = true ↔
      ∀ m ∈ env.network.get_reward_machines, gs.compromised m = true := by
  unfold Env.isDone
  exact List.all_eq_true

theorem isDone_step_mono (env : Env) (gs : EnvState) (a : Action)
    (h : env.isDone gs = true) : env.isDone (env.step gs a).1 = true := by
  rw [isDone_iff] at h ⊢
  exact fun m hm => step_ground_mono env gs a m (h m hm)

theorem isDone_run_mono (env : Env) (acts : List Action) (gs : EnvState)
    (h : env.isDone gs = true) : env.isDone (env.run gs acts) = true := by
  rw [isDone_iff] at h ⊢
  exact fun m hm => run_ground_mono env acts gs m (h m hm)

/-! ## Claim theorems -/

/-- C1: stepping with a target whose `reachable` flag is false in the current
State returns the State unchanged (no service-knowledge, compromised,
reachable or ground-truth change), reward = −action.cost, and done unchanged
(the pre-step termination value). -/
theorem step_not_reachable (env : Env) (gs : EnvState) (a : Action)
    (h : (gs.obs a.target).reachable = false) :
    env.step gs a = (gs, -a.cost, env.isDone gs) := by
  unfold Env.step
  simp [h]

/-- C1 witness: scanning the unreachable machine (1,0) right after reset
leaves the engine state unchanged with reward −1 and done = false. -/
theorem step_not_reachable_witness :
    env3.step env3.reset actS1 =
      (env3.reset, -actS1.cost, env3.isDone env3.reset) :=
  step_not_reachable env3 env3.reset actS1 (by decide)

/-- C2: for every episode (any action sequence after reset) the done flag
returned by `step` is true iff every reward machine of the topology is
compromised in the engine's ground truth afterwards; and once done is true it
remains true for every subsequent step of the same episode. -/
theorem step_done_iff_monotone (env : Env) (acts : List Action) (a : Action) :
    ((env.step (env.run env.reset acts) a).2.2 = true ↔
      ∀ m ∈ env.network.get_reward_machines,
        (env.step (env.run env.reset acts) a).1.compromised m = true)
    ∧ ((env.step (env.run env.reset acts) a).2.2 = true →
      ∀ (acts2 : List Action) (b : Action),
        (env.step (env.run (env.step (env.run env.reset acts) a).1 acts2)
          b).2.2 = true) := by
  constructor
  · rw [step_done_eq, isDone_iff]
  · intro h acts2 b
    rw [step_done_eq] at h
    rw [step_done_eq]
    exact isDone_step_mono _ _ _ (isDone_run_mono _ _ _ h)

/-- C2 witness: in the test fixture, the third exploit terminates the
episode, exactly when both reward machines are compromised. -/
theorem step_done_iff_monotone_witness :
    ((env3.step (env3.run env3.reset [actE0, actE1]) actE2).2.2 = true ↔
      ∀ m ∈ env3.network.get_reward_machines,
        (env3.step (env3.run env3.reset [actE0, actE1])
          actE2).1.compromised m = true)
    ∧ ((env3.step (env3.run env3.reset [actE0, actE1]) actE2).2.2 = true →
      ∀ (acts2 : List Action) (b : Action),
        (env3.step
          (env3.run (env3.step (env3.run env3.reset [actE0, actE1]) actE2).1
            acts2) b).2.2 = true) :=
  step_done_iff_monotone env3 [actE0, actE1] actE2

/-- C3: exploiting a reward machine that is already compromised in ground
truth yields reward = −cost (bonus = 0), and this holds after any further
intervening actions of the episode (no double reward). -/
theorem already_rewarded (env : Env) (gs : EnvState) (acts : List Action)
    (a : Action) (_hrm : a.target ∈ env.network.get_reward_machines)
    (_hexp : a.kind = ActionKind.exploit)
    (hcomp : gs.compromised a.target = true) :
    (env.step (env.run gs acts) a).2.1 = -a.cost := by
  have hcomp' : (env.run gs acts).compromised a.target = true :=
    run_ground_mono env acts gs a.target hcomp
  unfold Env.step
  split
  · rfl
  · split
    · rfl
    · split
      · simp only [hcomp', if_true]
        exact zero_sub a.cost
      · rfl

/-- C3 witness: re-exploiting the already-compromised user machine (2,0)
yields reward −1. -/
theorem already_rewarded_witness :
    (env3.step (env3.run (env3.run env3.reset [actE0, actE2]) [])
      actE2).2.1 = -actE2.cost :=
  already_rewarded env3 (env3.run env3.reset [actE0, actE2]) [] actE2
    (by decide) rfl (by decide)

/-- C4: within one episode, once a machine's reachable flag is true in a
returned State it stays true, once its compromised flag is true it stays
true, and a resolved (non-unknown) service-knowledge entry keeps its value
through every later State. -/
theorem obs_monotone (env : Env) (acts1 acts2 : List Action) (m : Address) :
    ((((env.run env.reset acts1).obs m).reachable = true →
      (((env.run (env.run env.reset acts1) acts2).obs m).reachable = true))
    ∧ ((((env.run env.reset acts1).obs m).compromised = true) →
      (((env.run (env.run env.reset acts1) acts2).obs m).compromised = true))
    ∧ ∀ (i : Nat) (w : Service), w ≠ Service.unknown →
      ((env.run env.reset acts1).obs m).service_info[i]? = some w →
      ((env.run (env.run env.reset acts1) acts2).obs
        m).service_info[i]? = some w) :=
  run_obs_mono env acts2 (env.run env.reset acts1) m

/-- C4 witness: the three monotonicity guarantees instantiated on machine
(0,0) after one exploit followed by one further exploit. -/
theorem obs_monotone_witness :
    ((((env3.run env3.reset [actE0]).obs (0, 0)).reachable = true →
      (((env3.run (env3.run env3.reset [actE0]) [actE1]).obs
        (0, 0)).reachable = true))
    ∧ ((((env3.run env3.reset [actE0]).obs (0, 0)).compromised = true) →
      (((env3.run (env3.run env3.reset [actE0]) [actE1]).obs
        (0, 0)).compromised = true))
    ∧ ∀ (i : Nat) (w : Service), w ≠ Service.unknown →
      ((env3.run env3.reset [actE0]).obs (0, 0)).service_info[i]? = some w →
      ((env3.run (env3.run env3.reset [actE0]) [actE1]).obs
        (0, 0)).service_info[i]? = some w) :=
  obs_monotone env3 [actE0] [actE1] (0, 0)

theorem set_reachable_self (o : State) (m : Address) :
    ((o.set_reachable m) m).reachable = true := by
  unfold State.set_reachable
  simp

theorem propagateReach_mem (net : Network) (tsub : Nat) (l : List Address)
    (o : State) (m : Address) (hm : m ∈ l)
    (hconn : net.subnets_connected tsub m.1 = true) :
    ((propagateReach net tsub l o) m).reachable = true := by
  induction l generalizing o with
  | nil => cases hm
  | cons m' rest ih =>
      unfold propagateReach
      rcases List.mem_cons.mp hm with rfl | hm'
      · by_cases hr : (o m).reachable = true
        · rw [if_pos hr]
          exact (obsMono_propagateReach net tsub rest o m).1 hr
        · rw [if_neg hr, if_pos hconn]
          exact (obsMono_propagateReach net tsub rest _ m).1
            (set_reachable_self o m)
      · split
        · exact ih _ hm'
        · split
          · exact ih _ hm'
          · exact ih _ hm'

/-- C5: after a successful exploit of machine X, every machine Y of the
address space whose subnet is connected to X's subnet is reachable in the
returned State. -/
theorem reachability_propagation (env : Env) (gs : EnvState) (a : Action)
    (hreach : (gs.obs a.target).reachable = true)
    (hexp : a.kind = ActionKind.exploit)
    (hsucc : (env.network.true_services a.target).getD a.service false = true)
    (m : Address) (hm : m ∈ env.network.address_space)
    (hconn : env.network.subnets_connected a.target.1 m.1 = true) :
    ((env.step gs a).1.obs m).reachable = true := by
  unfold Env.step
  rw [if_neg (by simp [hreach]), if_neg (by simp [hexp]), if_pos hsucc]
  exact propagateReach_mem env.network a.target.1 env.network.address_space
    _ m hm hconn

/-- C5 witness: exploiting machine (0,0) right after reset makes the
connected machine (2,0) reachable. -/
theorem reachability_propagation_witness :
    ((env3.step env3.reset actE0).1.obs (2, 0)).reachable = true :=
  reachability_propagation env3 env3.reset actE0 (by decide) rfl (by decide)
    (2, 0) (by decide) (by decide)

/-- C6: a successful exploit returns reward = machine-type bonus − cost,
where the bonus is `r_sensitive` for a first-time-compromised sensitive
machine, `r_user` for a first-time-compromised user machine and 0 otherwise;
in particular a successful exploit of a non-reward machine returns exactly
−cost. -/
theorem exploit_reward (env : Env) (gs : EnvState) (a : Action)
    (hreach : (gs.obs a.target).reachable = true)
    (hexp : a.kind = ActionKind.exploit)
    (hsucc : (env.network.true_services a.target).getD a.service
      false = true) :
    ((env.step gs a).2.1 =
      (if gs.compromised a.target = true then 0
       else if a.target ∈ env.network.sensitive_machines then env.r_sensitive
       else if a.target ∈ env.network.user_machines then env.r_user
       else 0) - a.cost)
    ∧ (a.target ∉ env.network.get_reward_machines →
      (env.step gs a).2.1 = -a.cost) := by
  have hmain : (env.step gs a).2.1 =
      (if gs.compromised a.target = true then 0
       else if a.target ∈ env.network.sensitive_machines then env.r_sensitive
       else if a.target ∈ env.network.user_machines then env.r_user
       else 0) - a.cost := by
    unfold Env.step
    rw [if_neg (by simp [hreach]), if_neg (by simp [hexp]), if_pos hsucc]
    show (if gs.compromised a.target = true then 0
       else if env.network.sensitive_machines.contains a.target = true then
         env.r_sensitive
       else if env.network.user_machines.contains a.target = true then
         env.r_user
       else 0) - a.cost = _
    simp only [List.elem_iff]
  refine ⟨hmain, fun hnr => ?_⟩
  have hs : a.target ∉ env.network.sensitive_machines :=
    fun hx => hnr (List.mem_append_left _ hx)
  have hu : a.target ∉ env.network.user_machines :=
    fun hx => hnr (List.mem_append_right _ hx)
  rw [hmain, if_neg hs, if_neg hu]
  split
  · exact zero_sub a.cost
  · exact zero_sub a.cost

/-- C6 witness: the first successful exploit of the sensitive machine (1,0)
earns the sensitive bonus minus cost. -/
theorem exploit_reward_witness :
    (((env3.step (env3.run env3.reset [actE0]) actE1).2.1 =
      (if (env3.run env3.reset [actE0]).compromised actE1.target = true then 0
       else if actE1.target ∈ env3.network.sensitive_machines then
         env3.r_sensitive
       else if actE1.target ∈ env3.network.user_machines then env3.r_user
       else 0) - actE1.cost)
    ∧ (actE1.target ∉ env3.network.get_reward_machines →
      (env3.step (env3.run env3.reset [actE0]) actE1).2.1 = -actE1.cost)) :=
  exploit_reward env3 (env3.run env3.reset [actE0]) actE1 (by decide) rfl
    (by decide)

/-- C7: reset returns a State with reachable true exactly on exposed-subnet
machines, all service knowledge unknown, all compromised flags false, the
sensitive flag equal to reward-machine membership, and ground truth all
uncompromised. -/
theorem reset_spec (env : Env) (m : Address) :
    (((env.reset).obs m).reachable = decide (m.1 = EXPOSED)
    ∧ (∀ i : Nat, i < env.network.E →
        ((env.reset).obs m).service_info[i]? = some Service.unknown)
    ∧ ((env.reset).obs m).compromised = false
    ∧ (((env.reset).obs m).sensitive = true ↔
        m ∈ env.network.get_reward_machines)
    ∧ (env.reset).compromised m = false) := by
  refine ⟨?_, ?_, rfl, ?_, rfl⟩
  · show (m.1 == EXPOSED) = decide (m.1 = EXPOSED)
    by_cases h : m.1 = EXPOSED <;> simp [h]
  · intro i hi
    show (List.replicate env.network.E Service.unknown)[i]? =
      some Service.unknown
    rw [List.getElem?_replicate, if_pos hi]
  · show env.network.get_reward_machines.contains m = true ↔
      m ∈ env.network.get_reward_machines
    exact List.elem_iff

/-- C7 witness: the reset facts evaluated on the reward machine (1,0) of the
test fixture. -/
theorem reset_spec_witness :
    (((env3.reset).obs (1, 0)).reachable = decide ((1, 0).1 = EXPOSED)
    ∧ (∀ i : Nat, i < env3.network.E →
        ((env3.reset).obs (1, 0)).service_info[i]? = some Service.unknown)
    ∧ ((env3.reset).obs (1, 0)).compromised = false
    ∧ (((env3.reset).obs (1, 0)).sensitive = true ↔
        (1, 0) ∈ env3.network.get_reward_machines)
    ∧ (env3.reset).compromised (1, 0) = false) :=
  reset_spec env3 (1, 0)

/-- C8: two consecutive `reset()` calls yield States that compare equal
under State equality over the address space; `reset` depends only on the
immutable engine configuration (the topology and its seed), never on the
episode state it discards, so this holds regardless of any steps taken
before the first of the two resets. -/
theorem reset_repeat_eq (env : Env) :
    stateEqOn env.network.address_space (env.reset).obs (env.reset).obs =
      true := by
  unfold stateEqOn
  simp [List.all_eq_true]

/-! ## CSV exporter theorems -/

theorem flatMap_fixed_length {α β : Type} (f : α → List β) (n : Nat)
    (hf : ∀ a, (f a).length = n) :
    ∀ l : List α, (l.flatMap f).length = l.length * n := by
  intro l
  induction l with
  | nil => simp
  | cons a rest ih =>
      rw [List.flatMap_cons, List.length_append, hf a, ih, List.length_cons]
      ring

theorem flatMap_fixed_getElem {α β : Type} (f : α → List β) (n : Nat)
    (hf : ∀ a, (f a).length = n) :
    ∀ (l : List α) (i e : Nat) (hi : i < l.length), e < n →
      (l.flatMap f)[i * n + e]? = (f (l.get ⟨i, hi⟩))[e]? := by
  intro l
  induction l with
  | nil => intro i e hi _; exact absurd hi (Nat.not_lt_zero i)
  | cons a rest ih =>
      intro i e hi he
      cases i with
      | zero =>
          have h0 : 0 * n + e = e := by omega
          rw [h0, List.flatMap_cons, List.getElem?_append,
            if_pos (by rw [hf a]; omega)]
          rfl
      | succ j =>
          have hidx : (j + 1) * n + e = (f a).length + (j * n + e) := by
            rw [hf a, Nat.succ_mul]
            ring
          rw [List.flatMap_cons,
            List.getElem?_append_right (by rw [hidx]; exact Nat.le_add_right _ _)]
          have hsub : (j + 1) * n + e - (f a).length = j * n + e := by
            rw [hidx]
            omega
          rw [hsub]
          exact ih j e (Nat.lt_of_succ_lt_succ hi) he

theorem run_scaling_analysis_shape (solve : String → Nat → Nat → RunOutcome)
    (agent : String) (ms : List Nat) :
    ∃ k, k ≤ ms.length ∧
      run_scaling_analysis solve agent ms =
        (ms.take k).flatMap fun m =>
          (List.range RUNS).map fun t =>
            write_results agent m t (solve agent m t).solved
              (solve agent m t).solve_time (solve agent m t).mean_reward := by
  induction ms with
  | nil => exact ⟨0, Nat.le_refl 0, rfl⟩
  | cons m rest ih =>
      by_cases h :
        ((List.range RUNS).any fun t => (solve agent m t).solved) = true
      · obtain ⟨k, hk, heq⟩ := ih
        refine ⟨k + 1, Nat.succ_le_succ hk, ?_⟩
        show run_scaling_analysis solve agent (m :: rest) = _
        simp only [run_scaling_analysis]
        rw [if_pos h, List.take_succ_cons, List.flatMap_cons, heq]
      · refine ⟨1, Nat.succ_le_succ (Nat.zero_le _), ?_⟩
        show run_scaling_analysis solve agent (m :: rest) = _
        simp only [run_scaling_analysis]
        rw [if_neg h, List.take_succ_cons, List.take_zero, List.flatMap_cons,
          List.flatMap_nil, List.append_nil]

/-- C9 (amended): `Analyser.output_results` emits the header
`agent,episode,timesteps,reward,time` followed by exactly one row per agent
per episode, in episode order 0..num_episodes−1; the scaling experiment
emits the header `agent,M,run,solved,solve_time,mean_reward` followed, for
the enabled agent, by one row per run for each machine count of an initial
segment of the sweep (the sweep stops early after a machine count at which
no run solved), fields in the stated order. -/
theorem csv_schemas (results : List (String × AgentSeries)) (n : Nat)
    (solve : String → Nat → Nat → RunOutcome) :
    ((output_results results n).head? =
      some "agent,episode,timesteps,reward,time"
    ∧ (output_results results n).length = 1 + results.length * n
    ∧ (∀ (i e : Nat) (hi : i < results.length), e < n →
        (output_results results n)[1 + (i * n + e)]? =
          some ((results.get ⟨i, hi⟩).1 ++ "," ++ toString e ++ "," ++
            (results.get ⟨i, hi⟩).2.steps e ++ "," ++
            (results.get ⟨i, hi⟩).2.rewards e ++ "," ++
            (results.get ⟨i, hi⟩).2.times e))
    ∧ (scaling_main solve).head? =
      some "agent,M,run,solved,solve_time,mean_reward"
    ∧ ∃ k, k ≤ machine_range.length ∧
        scaling_main solve =
          "agent,M,run,solved,solve_time,mean_reward" ::
            ((machine_range.take k).flatMap fun m =>
              (List.range RUNS).map fun t =>
                write_results "dqn" m t (solve "dqn" m t).solved
                  (solve "dqn" m t).solve_time
                  (solve "dqn" m t).mean_reward)) := by
  have hlen : ∀ p : String × AgentSeries,
      ((List.range n).map fun e =>
        p.1 ++ "," ++ toString e ++ "," ++ p.2.steps e ++ "," ++
          p.2.rewards e ++ "," ++ p.2.times e).length = n := by
    intro p
    rw [List.length_map, List.length_range]
  refine ⟨rfl, ?_, ?_, rfl, ?_⟩
  · show (_ :: _).length = _
    rw [List.length_cons, flatMap_fixed_length _ n hlen results]
    omega
  · intro i e hi he
    show (_ :: _)[1 + (i * n + e)]? = _
    have h1 : 1 + (i * n + e) = (i * n + e) + 1 := by omega
    rw [h1, List.getElem?_cons_succ,
      flatMap_fixed_getElem _ n hlen results i e hi he,
      List.getElem?_map, List.getElem?_range he]
    rfl
  · obtain ⟨k, hk, heq⟩ := run_scaling_analysis_shape solve "dqn" machine_range
    refine ⟨k, hk, ?_⟩
    show "agent,M,run,solved,solve_time,mean_reward" ::
        agents_list.flatMap
          (fun a => run_scaling_analysis solve a machine_range) = _
    rw [show agents_list = ["dqn"] from rfl, List.flatMap_cons,
      List.flatMap_nil, List.append_nil, heq]

/-- C9 witness: the first data row of `output_results` for a single agent
and a single episode, obtained from the schema theorem. -/
theorem csv_schemas_witness :
    (output_results [("dqn", series1)] 1)[1 + (0 * 1 + 0)]? =
      some ("dqn" ++ "," ++ toString 0 ++ "," ++ "s" ++ "," ++ "r" ++ "," ++
        "t") :=
  (csv_schemas [("dqn", series1)] 1 solve_none).2.2.1 0 0 (by decide)
    (by decide)

/-- C9 counterexample: under a training oracle where no run ever solves,
the scaling sweep breaks after machine count 27, so the output has
1 + RUNS = 6 lines, not the 1 + 1·2·5 = 11 lines that one row per
(agent, machine count, run) over the sweep [27, 29] would require. -/
theorem scaling_break_counterexample :
    29 ∈ machine_range ∧ agents_list.length = 1 ∧ RUNS = 5 ∧
    (scaling_main solve_none).length = 6 ∧
    (scaling_main solve_none).length ≠
      1 + agents_list.length * machine_range.length * RUNS := by
  refine ⟨by decide, rfl, rfl, rfl, by decide⟩

/-! ## `environment_solved` theorem -/

/-- C10: `environment_solved` returns mean reward = (sum of final-step
rewards of the solved evaluation episodes) / (number of solved episodes)
when at least one of the EVAL_RUNS evaluation episodes finishes strictly
below the optimal threshold (so the division is never executed with 0
solved runs); it returns mean reward 0 when no episode does; and the solved
flag is true iff solved_runs / EVAL_RUNS exceeds OPTIMAL_SOLVE_PROPORTION. -/
theorem environment_solved_correct (min_actions : Nat)
    (gen : Nat → List ℚ) :
    (((∃ r, r < EVAL_RUNS ∧
        (gen r).length < min_actions * OPTIMALITY_PROPORTION) →
      ((((List.range EVAL_RUNS).map gen).filter
        fun ep => ep.length < min_actions * OPTIMALITY_PROPORTION).length ≠ 0
      ∧ (environment_solved min_actions gen).2 =
        (((((List.range EVAL_RUNS).map gen).filter
          fun ep => ep.length < min_actions * OPTIMALITY_PROPORTION).map
            get_episode_reward).sum) /
          (((((List.range EVAL_RUNS).map gen).filter
            fun ep =>
              ep.length < min_actions * OPTIMALITY_PROPORTION).length : ℚ))))
    ∧ ((∀ r, r < EVAL_RUNS →
        ¬(gen r).length < min_actions * OPTIMALITY_PROPORTION) →
      (environment_solved min_actions gen).2 = 0)
    ∧ ((environment_solved min_actions gen).1 = true ↔
      OPTIMAL_SOLVE_PROPORTION <
        (((((List.range EVAL_RUNS).map gen).filter
          fun ep =>
            ep.length < min_actions * OPTIMALITY_PROPORTION).length : ℚ)) /
          (EVAL_RUNS : ℚ))) := by
  refine ⟨?_, ?_, ?_⟩
  · rintro ⟨r, hr, hlen⟩
    have hmem : gen r ∈ (List.range EVAL_RUNS).map gen :=
      List.mem_map_of_mem gen (List.mem_range.mpr hr)
    have hmemf : gen r ∈ ((List.range EVAL_RUNS).map gen).filter
        fun ep => ep.length < min_actions * OPTIMALITY_PROPORTION :=
      List.mem_filter.mpr ⟨hmem, by simpa using hlen⟩
    have hne : (((List.range EVAL_RUNS).map gen).filter
        fun ep =>
          ep.length < min_actions * OPTIMALITY_PROPORTION).length ≠ 0 := by
      have := List.length_pos.mpr (List.ne_nil_of_mem hmemf)
      omega
    refine ⟨hne, ?_⟩
    show (if (((List.range EVAL_RUNS).map gen).filter
        fun ep =>
          ep.length < min_actions * OPTIMALITY_PROPORTION).length = 0
      then (0 : ℚ) else _) = _
    rw [if_neg hne]
  · intro h
    have hnil : (((List.range EVAL_RUNS).map gen).filter
        fun ep => ep.length < min_actions * OPTIMALITY_PROPORTION) = [] := by
      rw [List.filter_eq_nil_iff]
      intro ep hep
      obtain ⟨r, hr, rfl⟩ := List.mem_map.mp hep
      simpa using h r (List.mem_range.mp hr)
    show (if (((List.range EVAL_RUNS).map gen).filter
        fun ep =>
          ep.length < min_actions * OPTIMALITY_PROPORTION).length = 0
      then (0 : ℚ) else _) = 0
    rw [hnil]
    rfl
  · show decide _ = true ↔ _
    exact decide_eq_true_iff

/-- C10 witness: the three guarantees instantiated at one minimum action
and the concrete episode table `gen_w`, whose run 0 finishes below the
threshold. -/
theorem environment_solved_correct_witness :
    (((∃ r, r < EVAL_RUNS ∧
        (gen_w r).length < 1 * OPTIMALITY_PROPORTION) →
      ((((List.range EVAL_RUNS).map gen_w).filter
        fun ep => ep.length < 1 * OPTIMALITY_PROPORTION).length ≠ 0
      ∧ (environment_solved 1 gen_w).2 =
        (((((List.range EVAL_RUNS).map gen_w).filter
          fun ep => ep.length < 1 * OPTIMALITY_PROPORTION).map
            get_episode_reward).sum) /
          (((((List.range EVAL_RUNS).map gen_w).filter
            fun ep =>
              ep.length < 1 * OPTIMALITY_PROPORTION).length : ℚ))))
    ∧ ((∀ r, r < EVAL_RUNS →
        ¬(gen_w r).length < 1 * OPTIMALITY_PROPORTION) →
      (environment_solved 1 gen_w).2 = 0)
    ∧ ((environment_solved 1 gen_w).1 = true ↔
      OPTIMAL_SOLVE_PROPORTION <
        (((((List.range EVAL_RUNS).map gen_w).filter
          fun ep =>
            ep.length < 1 * OPTIMALITY_PROPORTION).length : ℚ)) /
          (EVAL_RUNS : ℚ)))
    ∧ (∃ r, r < EVAL_RUNS ∧ (gen_w r).length < 1 * OPTIMALITY_PROPORTION) :=
  ⟨environment_solved_correct 1 gen_w, 0, by decide, by decide⟩

end CAS
